import Mathlib

/-!
Verification of the email-pipeline core of `audetia/iatencion-cliente`.

The Python sources `src/nodes.py`, `src/graph.py` and `src/tools/EmailTools.py`
are shallowly embedded below.  Generative capabilities (categorization, query
design, knowledge lookup, drafting, proofreading) are black boxes in the
repository (`src/agents.py` is referenced but the pipeline only consumes their
results), so they appear here as function-valued parameters.  The graph state
container (`src/state.py`, referenced but consisting only of field
declarations) is reconstructed from its uses in `nodes.py`/`graph.py` and from
the spec's RunState/Message records.  In-place mutations performed by node and
router functions (`state["emails"].pop()`, `state["writer_messages"] = []`)
are modelled as taking effect on the run state, which is the reading the
specification takes of the source.
-/

namespace IAtencion

/-! ## Python string primitives used by `EmailTools.py` -/

/-- Tokenizer behind `pySplit`: `acc` is the current token accumulated in
reverse; whitespace runs end tokens, empty tokens are never produced. -/
def splitWsAux : List Char → List Char → List String
  | [], acc => if acc.isEmpty then [] else [⟨acc.reverse⟩]
  | c :: cs, acc =>
    if c.isWhitespace then
      if acc.isEmpty then splitWsAux cs []
      else ⟨acc.reverse⟩ :: splitWsAux cs []
    else splitWsAux cs (c :: acc)

/-- Python `str.split()` with no argument: split on runs of whitespace,
dropping empty tokens. -/
def pySplit (s : String) : List String :=
  splitWsAux s.data []

/-- Python `str.strip("<>")`: remove leading and trailing characters drawn
from the set `{<, >}`. -/
def pyStripAngles (s : String) : String :=
  ⟨((s.data.dropWhile (fun c => c = '<' ∨ c = '>')).reverse.dropWhile
      (fun c => c = '<' ∨ c = '>')).reverse⟩

/-- Substring occurrence over character lists: `needle` occurs at some
position of the remaining text. -/
def containsList (needle : List Char) : List Char → Bool
  | [] => needle.isEmpty
  | c :: cs => needle.isPrefixOf (c :: cs) || containsList needle cs

/-- Python `needle in hay` substring test (as used by `_should_skip_email`). -/
def pyContains (hay needle : String) : Bool :=
  containsList needle.data hay.data

/-! ## `EmailToolsClass._get_thread_id` (EmailTools.py lines 526-544)

A raw fetched message.  Header fields are `""` when the header is absent
(`msg.get(h, "")` in the source).  `fresh` is the value the `uuid.uuid4()`
call would produce if this invocation needs to synthesize a key; making the
draw an explicit input is the shallow embedding of the source's
non-determinism. -/
structure RawMsg where
  references : String
  in_reply_to : String
  message_id : String
  sender : String
  subject : String
  body : String
  fresh : String
deriving DecidableEq, Repr

/-- `_get_thread_id`: first `references` token, else `in-reply-to`, else the
message's own `message-id` (brackets stripped in each case), else a fresh
`uuid@smtp_server` identifier. -/
def get_thread_id (smtp_server : String) (m : RawMsg) : String :=
  match pySplit m.references with
  | r :: _ => pyStripAngles r
  | [] =>
    if m.in_reply_to ≠ "" then pyStripAngles m.in_reply_to
    else if m.message_id ≠ "" then pyStripAngles m.message_id
    else m.fresh ++ "@" ++ smtp_server

/-! ## `_get_email_info`, `_should_skip_email`, `fetch_unanswered_emails`
(EmailTools.py lines 132-192, 546-572, 652-654) -/

/-- The dictionary `_get_email_info` builds for each kept message (body
extraction is collapsed to the raw body: MIME decoding is transport-side and
irrelevant to dedup). -/
structure EmailInfo where
  id : String
  threadId : String
  messageId : String
  references : String
  sender : String
  subject : String
  body : String
deriving DecidableEq, Repr

def get_email_info (smtp_server : String) (m : RawMsg) : EmailInfo :=
  { id := pyStripAngles m.message_id
    threadId := get_thread_id smtp_server m
    messageId := m.message_id
    references := m.references
    sender := m.sender
    subject := m.subject
    body := m.body }

/-- `_should_skip_email`: `self.email_user in email_info["sender"]`. -/
def should_skip_email (email_user : String) (info : EmailInfo) : Bool :=
  pyContains info.sender email_user

/-- The batch-scanning loop of `fetch_unanswered_emails` (lines 165-185):
`seen` is the `seen_threads` set accumulated so far.  A message is dropped if
its thread id was already seen in this batch, or already has a draft; a
self-sent message is dropped *after* its thread id has been recorded as
seen. -/
def fetchLoop (smtp_server email_user : String) (threads_with_drafts : List String) :
    List RawMsg → List String → List EmailInfo
  | [], _ => []
  | m :: rest, seen =>
    let tid := get_thread_id smtp_server m
    if tid ∈ seen then fetchLoop smtp_server email_user threads_with_drafts rest seen
    else if tid ∈ threads_with_drafts then
      fetchLoop smtp_server email_user threads_with_drafts rest seen
    else
      let info := get_email_info smtp_server m
      if should_skip_email email_user info then
        fetchLoop smtp_server email_user threads_with_drafts rest (tid :: seen)
      else
        info :: fetchLoop smtp_server email_user threads_with_drafts rest (tid :: seen)

/-- `fetch_unanswered_emails` applied to an already-fetched batch (the IMAP
fetch itself is transport). -/
def fetch_unanswered_emails (smtp_server email_user : String)
    (threads_with_drafts : List String) (batch : List RawMsg) : List EmailInfo :=
  fetchLoop smtp_server email_user threads_with_drafts batch []

/-- Modelled from the spec: the earliest-arrival representative selection that
§8 "Dedup" attributes to InboxSnapshot — keep a raw message iff its thread key
is neither in `seen` nor claimed by an earlier message of the batch.  Used as
the reference point the fetch loop is compared with. -/
def firstOccurrences (smtp_server : String) : List RawMsg → List String → List RawMsg
  | [], _ => []
  | m :: rest, seen =>
    let tid := get_thread_id smtp_server m
    if tid ∈ seen then firstOccurrences smtp_server rest seen
    else m :: firstOccurrences smtp_server rest (tid :: seen)

/-! ## `Nodes.retrieve_from_rag` (nodes.py lines 104-121)

The `for query in rag_queries` loop.  The third component counts invocations
of the knowledge-lookup capability (`agents.generate_rag_answer.invoke`),
which the loop performs exactly once per iteration before testing the
sentinel. -/
def ragLoop (lookup : String → String) : List String → String → String × Bool × Nat
  | [], acc => (acc, false, 0)
  | q :: qs, acc =>
    let rag_result := lookup q
    if rag_result = "null" then (acc, true, 1)
    else
      let r := ragLoop lookup qs (acc ++ q ++ "\n" ++ rag_result ++ "\n\n")
      (r.1, r.2.1, r.2.2 + 1)

/-! ## `EmailToolsClass.create_draft_reply` (EmailTools.py lines 312-442)

Only the exception-handling skeleton matters for the claims; the effectful
outcomes of the transport calls are inputs.  `append_ok` records whether the
IMAP APPEND fallback would succeed: the source catches `append_error`, logs
it, and falls through to the success return, so the result cannot depend on
it. -/
structure DraftEnv where
  smtp_ok : Bool
  connect_ok : Bool
  drafts_folder : Option String
  append_ok : Bool
deriving DecidableEq, Repr

/-- `create_draft_reply`: returns the `{threadId, id}` dictionary, or `none`
when an exception escapes to the outer handler (lines 439-442). -/
def create_draft_reply (env : DraftEnv) (threadId messageId : String) :
    Option (String × String) :=
  if env.smtp_ok then
    some (threadId, messageId)
  else
    -- SMTP failed: IMAP APPEND fallback (lines 365-437)
    if env.connect_ok = false then none      -- connect_to_inbox raises; outer handler
    else
      match env.drafts_folder with
      | none => none                          -- `raise ValueError`; outer handler
      | some _ =>
        -- select/APPEND failures are caught and logged (lines 422-427);
        -- the success dictionary is returned regardless of `append_ok`
        some (threadId, messageId)

/-! ## Pipeline state (`src/state.py`, reconstructed)

`state.py` is referenced by `nodes.py`/`graph.py` but contains only the field
declarations of `Email` and `GraphState`.  Modelled from the spec: the spec's
Message record (§3) and the fields read and written in `nodes.py`. -/
structure Email where
  id : String
  threadId : String
  messageId : String
  references : String
  sender : String
  subject : String
  body : String
deriving DecidableEq, Repr

/-- Modelled from the spec: the spec's RunState (§3) together with the keys
`nodes.py` reads with defaults (`state.get('trials', 0)`,
`state.get('writer_messages', [])`). -/
structure GraphState where
  emails : List Email
  current_email : Option Email
  email_category : String
  rag_queries : List String
  retrieved_documents : String
  needs_human_attention : Bool
  generated_email : String
  trials : Nat
  sendable : Bool
  writer_messages : List String
deriving DecidableEq, Repr

def GraphState.init : GraphState :=
  { emails := []
    current_email := none
    email_category := ""
    rag_queries := []
    retrieved_documents := ""
    needs_human_attention := false
    generated_email := ""
    trials := 0
    sendable := false
    writer_messages := [] }

/-- The generative capabilities of `src/agents.py`, black boxes invoked by the
nodes: categorization, RAG query design, knowledge lookup (answer string, with
`"null"` as the cannot-answer sentinel), draft writing (from the formatted
input block and the message history), and proofreading (sendable verdict and
feedback text). -/
structure Agents where
  categorize : String → String
  design_rag_queries : String → List String
  generate_rag_answer : String → String
  email_writer : String → List String → String
  email_proofreader : String → String → Bool × String

/-- `state["current_email"].body`; the node functions below only read it on
paths where `categorize_email` has set it. -/
def currentBody (s : GraphState) : String :=
  match s.current_email with
  | some e => e.body
  | none => ""

/-! ## Node functions (`src/nodes.py`) -/

/-- `Nodes.load_new_emails`: replace `emails` with the fetched batch. -/
def load_new_emails (inbox : List Email) (s : GraphState) : GraphState :=
  { s with emails := inbox }

/-- `Nodes.check_new_emails` (router). -/
def check_new_emails (s : GraphState) : String :=
  if s.emails.length = 0 then "empty" else "process"

/-- `Nodes.categorize_email` reads `state["emails"][-1]` with no emptiness
guard; `none` models the `IndexError` the source raises on an empty list. -/
def categorize_email (a : Agents) (s : GraphState) : Option GraphState :=
  match s.emails.getLast? with
  | none => none
  | some current_email =>
    some { s with email_category := a.categorize current_email.body
                  current_email := some current_email }

/-- `Nodes.route_email_based_on_category` (router). -/
def route_email_based_on_category (s : GraphState) : String :=
  if s.email_category = "product_enquiry" ∨ s.email_category = "lead_enquiry" then
    "product related"
  else if s.email_category = "unrelated" then "unrelated"
  else if s.email_category = "spam" then "spam"
  else "not product related"

/-- `Nodes.construct_rag_queries`. -/
def construct_rag_queries (a : Agents) (s : GraphState) : GraphState :=
  { s with rag_queries := a.design_rag_queries (currentBody s) }

/-- `Nodes.retrieve_from_rag`: run `ragLoop` over the queries and store the
accumulated answer and the human-attention flag. -/
def retrieve_from_rag (a : Agents) (s : GraphState) : GraphState :=
  let r := ragLoop a.generate_rag_answer s.rag_queries ""
  { s with retrieved_documents := r.1, needs_human_attention := r.2.1 }

/-- The formatted input block `write_draft_email` passes to the writer. -/
def writerInputs (s : GraphState) : String :=
  "# **EMAIL CATEGORY:** " ++ s.email_category ++ "\n\n" ++
  "# **EMAIL CONTENT:**\n" ++ currentBody s ++ "\n\n" ++
  "# **INFORMATION:**\n" ++ s.retrieved_documents

/-- `Nodes.write_draft_email`: invoke the writer with the current history,
increment `trials`, append the draft to `writer_messages`. -/
def write_draft_email (a : Agents) (s : GraphState) : GraphState :=
  let draft := a.email_writer (writerInputs s) s.writer_messages
  let trials := s.trials + 1
  { s with generated_email := draft
           trials := trials
           writer_messages :=
             s.writer_messages ++ ["**Draft " ++ toString trials ++ ":**\n" ++ draft] }

/-- `Nodes.verify_generated_email`: invoke the proofreader, record the
verdict, append the feedback to `writer_messages`. -/
def verify_generated_email (a : Agents) (s : GraphState) : GraphState :=
  let review := a.email_proofreader (currentBody s) s.generated_email
  { s with sendable := review.1
           writer_messages :=
             s.writer_messages ++ ["**Proofreader Feedback:**\n" ++ review.2] }

/-- The state effect of the `"send"` and `"stop"` branches of
`Nodes.must_rewrite`: `state["emails"].pop()` and
`state["writer_messages"] = []`; `trials` is left untouched. -/
def popClear (s : GraphState) : GraphState :=
  { s with emails := s.emails.dropLast, writer_messages := [] }

/-- `Nodes.must_rewrite` (router with side effects): on `"send"` and `"stop"`
it pops `state["emails"]` and clears `writer_messages`. -/
def must_rewrite (s : GraphState) : String × GraphState :=
  if s.sendable then ("send", popClear s)
  else if s.trials ≥ 3 then ("stop", popClear s)
  else ("rewrite", s)

theorem must_rewrite_send (s : GraphState) (h : s.sendable = true) :
    must_rewrite s = ("send", popClear s) := by
  simp [must_rewrite, h]

theorem must_rewrite_stop (s : GraphState) (h1 : s.sendable = false)
    (h2 : 3 ≤ s.trials) : must_rewrite s = ("stop", popClear s) := by
  simp [must_rewrite, h1, h2]

/-- `Nodes.create_draft_response` / `Nodes.send_email_response`: the transport
call's result is only logged; the state update is the same either way. -/
def dispatch_response (s : GraphState) : GraphState :=
  { s with retrieved_documents := "", trials := 0 }

/-- `Nodes.skip_unrelated_email`, `Nodes.skip_spam_email`,
`Nodes.mark_for_human_attention`: pop the current email, change nothing
else. -/
def skip_pop (s : GraphState) : GraphState :=
  { s with emails := s.emails.dropLast }

/-! ## The revision loop (`email_writer` → `email_proofreader` →
`must_rewrite`, looping on `"rewrite"`)

`revisionLoop` runs the cycle the graph wires between `email_writer` and
`email_proofreader` until `must_rewrite` routes away from `"rewrite"`.  The
`Nat` counts the write/verify rounds performed.  `must_rewrite` returns
`"rewrite"` exactly when the verdict is not sendable and `trials < 3`, and
leaves the state unchanged on that branch (`must_rewrite_eq_rewrite`
below). -/
theorem round_trials (a : Agents) (s : GraphState) :
    (verify_generated_email a (write_draft_email a s)).trials = s.trials + 1 := by
  simp [verify_generated_email, write_draft_email]

def revisionLoop (a : Agents) (s : GraphState) : GraphState × String × Nat :=
  let s2 := verify_generated_email a (write_draft_email a s)
  if h : s2.sendable = false ∧ s2.trials < 3 then
    let r := revisionLoop a s2
    (r.1, r.2.1, r.2.2 + 1)
  else
    ((must_rewrite s2).2, (must_rewrite s2).1, 1)
termination_by 3 - s.trials
decreasing_by
  rw [round_trials] at h ⊢
  omega

theorem must_rewrite_eq_rewrite (s : GraphState) (h1 : s.sendable = false)
    (h2 : s.trials < 3) : must_rewrite s = ("rewrite", s) := by
  simp [must_rewrite, h1, Nat.not_le_of_lt h2]

@[simp] theorem popClear_emails (s : GraphState) :
    (popClear s).emails = s.emails.dropLast := rfl

@[simp] theorem popClear_trials (s : GraphState) :
    (popClear s).trials = s.trials := rfl

/-! ## The workflow graph (`src/graph.py`, `Workflow.__init__`)

One node per `workflow.add_node` call, plus `finish` for `END` and `crash`
for the unguarded `state["emails"][-1]` access in `categorize_email`. -/
inductive Node where
  | load_inbox_emails
  | is_email_inbox_empty
  | categorize_email
  | construct_rag_queries
  | retrieve_from_rag
  | email_writer
  | email_proofreader
  | create_draft
  | send_email
  | skip_unrelated_email
  | mark_for_human_attention
  | skip_spam_email
  | finish
  | crash
deriving DecidableEq, Repr

/-- One run's fixed inputs: the agents, the fetched inbox, and the
`HUMAN_INTERACTION` configuration flag. -/
structure RunCtx where
  agents : Agents
  inbox : List Email
  human_interaction : Bool

/-- A machine configuration: current node, graph state, and two ghost logs —
`popLog` records each email removed by a `state["emails"].pop()` call in
arrival order of the pops, `writeLog` records, for each invocation of the
`email_writer` node, the `(email_category, retrieved_documents)` pair the
draft was produced with. -/
structure Machine where
  node : Node
  state : GraphState
  popLog : List Email
  writeLog : List (String × String)
deriving DecidableEq, Repr

def initMachine : Machine :=
  { node := .load_inbox_emails, state := GraphState.init, popLog := [], writeLog := [] }

/-- Ghost bookkeeping for a `state["emails"].pop()` site. -/
def logPop (s : GraphState) (log : List Email) : List Email :=
  log ++ s.emails.getLast?.toList

/-- One step of the compiled graph: run the current node's function, then
follow its (conditional) edge, exactly as wired in `Workflow.__init__`. -/
def step (ctx : RunCtx) (m : Machine) : Machine :=
  match m.node with
  | .load_inbox_emails =>
    { m with node := .is_email_inbox_empty, state := load_new_emails ctx.inbox m.state }
  | .is_email_inbox_empty =>
    if check_new_emails m.state = "empty" then { m with node := .finish }
    else { m with node := .categorize_email }
  | .categorize_email =>
    match categorize_email ctx.agents m.state with
    | none => { m with node := .crash }
    | some s' =>
      let target : Node :=
        if route_email_based_on_category s' = "product related" then .construct_rag_queries
        else if route_email_based_on_category s' = "unrelated" then .skip_unrelated_email
        else if route_email_based_on_category s' = "spam" then .skip_spam_email
        else .email_writer
      { m with node := target, state := s' }
  | .construct_rag_queries =>
    { m with node := .retrieve_from_rag, state := construct_rag_queries ctx.agents m.state }
  | .retrieve_from_rag =>
    let s' := retrieve_from_rag ctx.agents m.state
    { m with state := s'
             node := if s'.needs_human_attention then .mark_for_human_attention
                     else .email_writer }
  | .email_writer =>
    { m with node := .email_proofreader
             state := write_draft_email ctx.agents m.state
             writeLog := m.writeLog ++
               [(m.state.email_category, m.state.retrieved_documents)] }
  | .email_proofreader =>
    let s' := verify_generated_email ctx.agents m.state
    let r := must_rewrite s'
    if r.1 = "send" then
      { m with node := if ctx.human_interaction then .create_draft else .send_email
               state := r.2, popLog := logPop s' m.popLog }
    else if r.1 = "stop" then
      { m with node := .categorize_email, state := r.2, popLog := logPop s' m.popLog }
    else
      { m with node := .email_writer, state := r.2 }
  | .create_draft =>
    { m with node := .is_email_inbox_empty, state := dispatch_response m.state }
  | .send_email =>
    { m with node := .is_email_inbox_empty, state := dispatch_response m.state }
  | .skip_unrelated_email =>
    { m with node := .is_email_inbox_empty, state := skip_pop m.state
             popLog := logPop m.state m.popLog }
  | .skip_spam_email =>
    { m with node := .is_email_inbox_empty, state := skip_pop m.state
             popLog := logPop m.state m.popLog }
  | .mark_for_human_attention =>
    { m with node := .is_email_inbox_empty, state := skip_pop m.state
             popLog := logPop m.state m.popLog }
  | .finish => m
  | .crash => m

/-- Run the graph for `fuel` steps from a configuration. -/
def run (ctx : RunCtx) : Nat → Machine → Machine
  | 0, m => m
  | n + 1, m => run ctx n (step ctx m)

/-! ## Projection lemmas for the node functions -/

@[simp] theorem verify_emails (a : Agents) (s : GraphState) :
    (verify_generated_email a s).emails = s.emails := rfl

@[simp] theorem verify_trials (a : Agents) (s : GraphState) :
    (verify_generated_email a s).trials = s.trials := rfl

@[simp] theorem write_emails (a : Agents) (s : GraphState) :
    (write_draft_email a s).emails = s.emails := rfl

@[simp] theorem write_trials (a : Agents) (s : GraphState) :
    (write_draft_email a s).trials = s.trials + 1 := rfl

theorem dropLast_append_getLastToList {α : Type} (l : List α) :
    l.dropLast ++ l.getLast?.toList = l := by
  rcases eq_or_ne l [] with rfl | h
  · rfl
  · rw [List.getLast?_eq_getLast_of_ne_nil h]
    simpa using List.dropLast_append_getLast h

/-- The state/ghost-log relation a `state["emails"].pop()` site maintains. -/
theorem pop_log_reverse {α : Type} (l log : List α) :
    l.dropLast ++ (log ++ l.getLast?.toList).reverse = l ++ log.reverse := by
  have htl : l.getLast?.toList.reverse = l.getLast?.toList := by
    cases l.getLast? <;> rfl
  rw [List.reverse_append, htl, ← List.append_assoc, dropLast_append_getLastToList]

/-! ## The exactly-once-pop invariant (claim C1) -/

/-- Queue/pop-log invariant: after the inbox is loaded, the unprocessed queue
plus the reversed pop log is exactly the fetched inbox, and the terminal
nodes are only reached with an empty queue. -/
def PopInv (ctx : RunCtx) (m : Machine) : Prop :=
  (m.node = .load_inbox_emails ∧ m.state.emails = [] ∧ m.popLog = [])
  ∨ (m.node ≠ .load_inbox_emails
     ∧ m.state.emails ++ m.popLog.reverse = ctx.inbox
     ∧ ((m.node = .finish ∨ m.node = .crash) → m.state.emails = []))

theorem popInv_init (ctx : RunCtx) : PopInv ctx initMachine :=
  Or.inl ⟨rfl, rfl, rfl⟩

theorem popInv_step (ctx : RunCtx) (m : Machine) (h : PopInv ctx m) :
    PopInv ctx (step ctx m) := by
  obtain ⟨node, s, pl, wl⟩ := m
  cases node with
  | load_inbox_emails =>
    obtain ⟨-, h2, h3⟩ | ⟨h1, -, -⟩ := h
    · exact Or.inr ⟨by simp [step], by simp_all [step, load_new_emails], by simp [step]⟩
    · exact absurd rfl h1
  | is_email_inbox_empty =>
    obtain ⟨h1, -, -⟩ | ⟨-, h2, -⟩ := h
    · exact absurd h1 (by simp)
    · by_cases hc : check_new_emails s = "empty"
      · have he : s.emails = [] := by
          by_cases hl : s.emails.length = 0
          · exact List.length_eq_zero.mp hl
          · simp [check_new_emails, hl] at hc
        exact Or.inr ⟨by simp [step, hc], by simpa [step, hc] using h2,
          fun _ => by simpa [step, hc] using he⟩
      · exact Or.inr ⟨by simp [step, hc], by simpa [step, hc] using h2, by simp [step, hc]⟩
  | categorize_email =>
    obtain ⟨h1, -, -⟩ | ⟨-, h2, -⟩ := h
    · exact absurd h1 (by simp)
    · cases hj : s.emails.getLast? with
      | none =>
        refine Or.inr ⟨by simp [step, categorize_email, hj], ?_, fun _ => ?_⟩
        · simpa [step, categorize_email, hj] using h2
        · have : s.emails = [] := List.getLast?_eq_none_iff.mp hj
          simp [step, categorize_email, hj, this]
      | some ce =>
        refine Or.inr ⟨?_, ?_, ?_⟩
        · simp only [step, categorize_email, hj]
          split_ifs <;> simp
        · simpa [step, categorize_email, hj] using h2
        · simp only [step, categorize_email, hj]
          split_ifs <;> simp
  | construct_rag_queries =>
    obtain ⟨h1, -, -⟩ | ⟨-, h2, -⟩ := h
    · exact absurd h1 (by simp)
    · exact Or.inr ⟨by simp [step], by simpa [step, construct_rag_queries] using h2,
        by simp [step]⟩
  | retrieve_from_rag =>
    obtain ⟨h1, -, -⟩ | ⟨-, h2, -⟩ := h
    · exact absurd h1 (by simp)
    · refine Or.inr ⟨?_, ?_, ?_⟩
      · simp only [step]
        split_ifs <;> simp
      · simpa [step, retrieve_from_rag] using h2
      · simp only [step]
        split_ifs <;> simp
  | email_writer =>
    obtain ⟨h1, -, -⟩ | ⟨-, h2, -⟩ := h
    · exact absurd h1 (by simp)
    · exact Or.inr ⟨by simp [step], by simpa [step] using h2, by simp [step]⟩
  | email_proofreader =>
    obtain ⟨h1, -, -⟩ | ⟨-, h2, -⟩ := h
    · exact absurd h1 (by simp)
    · by_cases hs : (verify_generated_email ctx.agents s).sendable
      · have hmr := must_rewrite_send (verify_generated_email ctx.agents s) hs
        refine Or.inr ⟨?_, ?_, ?_⟩
        · simp only [step, hmr]
          split_ifs <;> simp
        · have key : s.emails.dropLast ++ (pl ++ s.emails.getLast?.toList).reverse =
              ctx.inbox := by
            rw [pop_log_reverse]
            simpa using h2
          simpa [step, hmr, logPop] using key
        · simp only [step, hmr]
          split_ifs <;> simp
      · have hs' : (verify_generated_email ctx.agents s).sendable = false :=
          Bool.eq_false_iff.mpr hs
        by_cases ht : 3 ≤ s.trials
        · have hmr := must_rewrite_stop (verify_generated_email ctx.agents s) hs'
            (by simpa using ht)
          refine Or.inr ⟨?_, ?_, ?_⟩
          · simp [step, hmr]
          · have key : s.emails.dropLast ++ (pl ++ s.emails.getLast?.toList).reverse =
                ctx.inbox := by
              rw [pop_log_reverse]
              simpa using h2
            simpa [step, hmr, logPop] using key
          · simp [step, hmr]
        · have hmr := must_rewrite_eq_rewrite (verify_generated_email ctx.agents s) hs'
            (by simpa using Nat.lt_of_not_le ht)
          refine Or.inr ⟨?_, ?_, ?_⟩
          · simp [step, hmr]
          · simpa [step, hmr] using h2
          · simp [step, hmr]
  | create_draft =>
    obtain ⟨h1, -, -⟩ | ⟨-, h2, -⟩ := h
    · exact absurd h1 (by simp)
    · exact Or.inr ⟨by simp [step], by simpa [step, dispatch_response] using h2,
        by simp [step]⟩
  | send_email =>
    obtain ⟨h1, -, -⟩ | ⟨-, h2, -⟩ := h
    · exact absurd h1 (by simp)
    · exact Or.inr ⟨by simp [step], by simpa [step, dispatch_response] using h2,
        by simp [step]⟩
  | skip_unrelated_email =>
    obtain ⟨h1, -, -⟩ | ⟨-, h2, -⟩ := h
    · exact absurd h1 (by simp)
    · refine Or.inr ⟨by simp [step], ?_, by simp [step]⟩
      have key : s.emails.dropLast ++ (pl ++ s.emails.getLast?.toList).reverse =
          ctx.inbox := by
        rw [pop_log_reverse]
        simpa using h2
      simpa [step, skip_pop, logPop] using key
  | skip_spam_email =>
    obtain ⟨h1, -, -⟩ | ⟨-, h2, -⟩ := h
    · exact absurd h1 (by simp)
    · refine Or.inr ⟨by simp [step], ?_, by simp [step]⟩
      have key : s.emails.dropLast ++ (pl ++ s.emails.getLast?.toList).reverse =
          ctx.inbox := by
        rw [pop_log_reverse]
        simpa using h2
      simpa [step, skip_pop, logPop] using key
  | mark_for_human_attention =>
    obtain ⟨h1, -, -⟩ | ⟨-, h2, -⟩ := h
    · exact absurd h1 (by simp)
    · refine Or.inr ⟨by simp [step], ?_, by simp [step]⟩
      have key : s.emails.dropLast ++ (pl ++ s.emails.getLast?.toList).reverse =
          ctx.inbox := by
        rw [pop_log_reverse]
        simpa using h2
      simpa [step, skip_pop, logPop] using key
  | finish =>
    obtain ⟨h1, -, -⟩ | ⟨-, h2, h3⟩ := h
    · exact absurd h1 (by simp)
    · exact Or.inr ⟨by simp [step], by simpa [step] using h2, by simpa [step] using h3⟩
  | crash =>
    obtain ⟨h1, -, -⟩ | ⟨-, h2, h3⟩ := h
    · exact absurd h1 (by simp)
    · exact Or.inr ⟨by simp [step], by simpa [step] using h2, by simpa [step] using h3⟩

theorem popInv_run (ctx : RunCtx) (fuel : Nat) (m : Machine) (h : PopInv ctx m) :
    PopInv ctx (run ctx fuel m) := by
  induction fuel generalizing m with
  | zero => exact h
  | succ n ih => exact ih (step ctx m) (popInv_step ctx m h)

end IAtencion

namespace IAtencion

/-! ## Concrete fixtures used by witnesses and counterexamples -/

/-- A product-enquiry test email (processed first: the controller works on the
tail of the list). -/
def eA : Email := ⟨"A", "tA", "", "", "a@x", "sA", "A"⟩

/-- A second test email (processed after `eA`). -/
def eB : Email := ⟨"B", "tB", "", "", "b@x", "sB", "B"⟩

/-- Agents that categorize everything as spam. -/
def agSpam : Agents :=
  ⟨fun _ => "spam", fun _ => [], fun _ => "", fun _ _ => "d", fun _ _ => (true, "ok")⟩

/-- Agents that categorize everything as a complaint and never approve a
draft, driving the revision loop to exhaustion. -/
def agNever : Agents :=
  ⟨fun _ => "customer_complaint", fun _ => [], fun _ => "", fun _ _ => "d",
   fun _ _ => (false, "bad")⟩

/-- Agents for the stale-context scenario: `eA` is a product enquiry whose
second lookup hits the sentinel, `eB` is a complaint. -/
def agStale : Agents :=
  ⟨fun b => if b = "A" then "product_enquiry" else "customer_complaint",
   fun _ => ["q1", "q2"],
   fun q => if q = "q2" then "null" else "ans1",
   fun _ _ => "d", fun _ _ => (true, "ok")⟩

/-- One spam email, auto-send configuration. -/
def ctxSpam : RunCtx := ⟨agSpam, [eA], false⟩

/-- Two complaint emails, proofreader never approves. -/
def ctxNever : RunCtx := ⟨agNever, [eB, eA], false⟩

/-- Escalated product enquiry followed by a complaint. -/
def ctxStale : RunCtx := ⟨agStale, [eB, eA], false⟩

/-- A single complaint email the proofreader never approves. -/
def ctxLast : RunCtx := ⟨agNever, [eA], false⟩

/-! ## Claim C1 -/

/-- C1.  Exactly-once pop: in any run that reaches FINISH, the reversed pop
log is exactly the initially enqueued inbox — so every enqueued message was
removed from the queue by exactly one `state["emails"].pop()` call (one
terminal path), the number of pops equals the number of messages initially
enqueued, and no message is left in the queue. -/
theorem exactly_once_pop (ctx : RunCtx) (fuel : Nat)
    (hfin : (run ctx fuel initMachine).node = .finish) :
    (run ctx fuel initMachine).popLog.reverse = ctx.inbox
    ∧ (run ctx fuel initMachine).state.emails = []
    ∧ (run ctx fuel initMachine).popLog.length = ctx.inbox.length
    ∧ ∀ e : Email, (run ctx fuel initMachine).popLog.count e = ctx.inbox.count e := by
  have hinv := popInv_run ctx fuel initMachine (popInv_init ctx)
  obtain ⟨h1, -, -⟩ | ⟨-, h2, h3⟩ := hinv
  · rw [hfin] at h1
    exact absurd h1 (by simp)
  · have he : (run ctx fuel initMachine).state.emails = [] := h3 (Or.inl hfin)
    have hrev : (run ctx fuel initMachine).popLog.reverse = ctx.inbox := by
      rw [he] at h2
      simpa using h2
    refine ⟨hrev, he, ?_, ?_⟩
    · rw [← hrev]
      simp
    · intro e
      rw [← hrev]
      simp [List.count_reverse]

/-- Witness for C1: a one-message spam run finishes with the single email
popped exactly once. -/
theorem exactly_once_pop_witness :
    (run ctxSpam 6 initMachine).popLog.reverse = ctxSpam.inbox
    ∧ (run ctxSpam 6 initMachine).state.emails = []
    ∧ (run ctxSpam 6 initMachine).popLog.length = ctxSpam.inbox.length
    ∧ ∀ e : Email, (run ctxSpam 6 initMachine).popLog.count e = ctxSpam.inbox.count e :=
  exactly_once_pop ctxSpam 6 rfl

end IAtencion

namespace IAtencion

/-! ## Claim C4 -/

/-- C4.  Retry-exhaustion re-entry: when the proofreader's verdict is not
sendable and the trial counter has reached 3, the `"stop"` edge of
`email_proofreader` moves the controller to `categorize_email` (not to the
queue-empty check), and the exhausted message has already been popped from
the queue (and logged) by that same transition. -/
theorem stop_reenters_categorize (ctx : RunCtx) (m : Machine)
    (hn : m.node = .email_proofreader)
    (hs : (verify_generated_email ctx.agents m.state).sendable = false)
    (ht : 3 ≤ m.state.trials) :
    (step ctx m).node = .categorize_email
    ∧ (step ctx m).state.emails = m.state.emails.dropLast
    ∧ (step ctx m).popLog = m.popLog ++ m.state.emails.getLast?.toList := by
  obtain ⟨node, s, pl, wl⟩ := m
  simp only at hn hs ht
  subst hn
  have hmr := must_rewrite_stop (verify_generated_email ctx.agents s) hs
    (by simpa using ht)
  refine ⟨?_, ?_, ?_⟩ <;> simp [step, hmr, logPop, popClear]

/-- Witness for C4: in the two-complaint never-approve run, the third failing
verdict pops the first email and re-enters categorization. -/
theorem stop_reenters_categorize_witness :
    (step ctxNever (run ctxNever 8 initMachine)).node = .categorize_email
    ∧ (step ctxNever (run ctxNever 8 initMachine)).state.emails =
        (run ctxNever 8 initMachine).state.emails.dropLast
    ∧ (step ctxNever (run ctxNever 8 initMachine)).popLog =
        (run ctxNever 8 initMachine).popLog ++
          (run ctxNever 8 initMachine).state.emails.getLast?.toList :=
  stop_reenters_categorize ctxNever (run ctxNever 8 initMachine) rfl rfl (by decide)

/-! ## Claim C9 -/

/-- C9.  Stop-route reachability of the out-of-bounds access: with a single
message whose drafts are never approved, the `"stop"` edge pops the last
remaining message and re-enters `categorize_email`, which then reads
`state["emails"][-1]` on an empty list — the run aborts (absorbing `crash`
node) instead of reaching FINISH. -/
theorem stop_route_crash_reachable :
    (run ctxLast 9 initMachine).node = .categorize_email
    ∧ (run ctxLast 9 initMachine).state.emails = []
    ∧ (run ctxLast 9 initMachine).popLog = [eA]
    ∧ (run ctxLast 10 initMachine).node = .crash
    ∧ (run ctxLast 30 initMachine).node = .crash :=
  ⟨rfl, rfl, rfl, rfl, rfl⟩

end IAtencion

namespace IAtencion

/-! ## Claim C3: feedback-history and trial-counter clearing -/

/-- Outside the writer/proofreader cycle, `writer_messages` is empty: the
`"send"` and `"stop"` branches of `must_rewrite` clear it before leaving the
cycle. -/
def WmInv (m : Machine) : Prop :=
  m.node = .email_writer ∨ m.node = .email_proofreader
  ∨ m.state.writer_messages = []

theorem wmInv_step (ctx : RunCtx) (m : Machine) (h : WmInv m) :
    WmInv (step ctx m) := by
  obtain ⟨node, s, pl, wl⟩ := m
  cases node with
  | load_inbox_emails =>
    have hwm : s.writer_messages = [] := by simpa [WmInv] using h
    exact Or.inr (Or.inr (by simpa [step, load_new_emails] using hwm))
  | is_email_inbox_empty =>
    have hwm : s.writer_messages = [] := by simpa [WmInv] using h
    refine Or.inr (Or.inr ?_)
    simp only [step]
    split_ifs <;> simpa using hwm
  | categorize_email =>
    have hwm : s.writer_messages = [] := by simpa [WmInv] using h
    refine Or.inr (Or.inr ?_)
    cases hj : s.emails.getLast? with
    | none => simpa [step, categorize_email, hj] using hwm
    | some ce =>
      simpa [step, categorize_email, hj] using hwm
  | construct_rag_queries =>
    have hwm : s.writer_messages = [] := by simpa [WmInv] using h
    exact Or.inr (Or.inr (by simpa [step, construct_rag_queries] using hwm))
  | retrieve_from_rag =>
    have hwm : s.writer_messages = [] := by simpa [WmInv] using h
    exact Or.inr (Or.inr (by simpa [step, retrieve_from_rag] using hwm))
  | email_writer =>
    exact Or.inr (Or.inl (by simp [step]))
  | email_proofreader =>
    by_cases hs : (verify_generated_email ctx.agents s).sendable
    · have hmr := must_rewrite_send (verify_generated_email ctx.agents s) hs
      refine Or.inr (Or.inr ?_)
      simp only [step, hmr]
      split_ifs <;> simp [popClear]
    · have hs' : (verify_generated_email ctx.agents s).sendable = false :=
        Bool.eq_false_iff.mpr hs
      by_cases ht : 3 ≤ s.trials
      · have hmr := must_rewrite_stop (verify_generated_email ctx.agents s) hs'
          (by simpa using ht)
        refine Or.inr (Or.inr ?_)
        simp only [step, hmr]
        split_ifs <;> simp [popClear]
      · have hmr := must_rewrite_eq_rewrite (verify_generated_email ctx.agents s) hs'
          (by simpa using Nat.lt_of_not_le ht)
        refine Or.inl ?_
        simp [step, hmr]
  | create_draft =>
    have hwm : s.writer_messages = [] := by simpa [WmInv] using h
    exact Or.inr (Or.inr (by simpa [step, dispatch_response] using hwm))
  | send_email =>
    have hwm : s.writer_messages = [] := by simpa [WmInv] using h
    exact Or.inr (Or.inr (by simpa [step, dispatch_response] using hwm))
  | skip_unrelated_email =>
    have hwm : s.writer_messages = [] := by simpa [WmInv] using h
    exact Or.inr (Or.inr (by simpa [step, skip_pop] using hwm))
  | skip_spam_email =>
    have hwm : s.writer_messages = [] := by simpa [WmInv] using h
    exact Or.inr (Or.inr (by simpa [step, skip_pop] using hwm))
  | mark_for_human_attention =>
    have hwm : s.writer_messages = [] := by simpa [WmInv] using h
    exact Or.inr (Or.inr (by simpa [step, skip_pop] using hwm))
  | finish =>
    have hwm : s.writer_messages = [] := by simpa [WmInv] using h
    exact Or.inr (Or.inr (by simpa [step] using hwm))
  | crash =>
    have hwm : s.writer_messages = [] := by simpa [WmInv] using h
    exact Or.inr (Or.inr (by simpa [step] using hwm))

theorem wmInv_run (ctx : RunCtx) (fuel : Nat) (m : Machine) (h : WmInv m) :
    WmInv (run ctx fuel m) := by
  induction fuel generalizing m with
  | zero => exact h
  | succ n ih => exact ih (step ctx m) (wmInv_step ctx m h)

/-- C3 counterexample: in the two-complaint never-approve run, after the
first email reaches the retry-exhaustion terminal (it is the only popped
message), the controller is about to draft the second email while
`trials = 3` — the next message does not start with a cleared trial
counter, contradicting the claim. -/
theorem reset_on_terminal_cex :
    (run ctxNever 10 initMachine).node = .email_writer
    ∧ (run ctxNever 10 initMachine).popLog = [eA]
    ∧ (run ctxNever 10 initMachine).state.current_email = some eB
    ∧ (run ctxNever 10 initMachine).state.trials = 3 :=
  ⟨rfl, rfl, rfl, rfl⟩

/-- C3 amended.  Clearing on terminal paths, as the code actually does it:
(1) `writer_messages` (the feedback history) is empty whenever the controller
is at `categorize_email`, so every message does start with an empty feedback
history; (2) the dispatch nodes (`create_draft`/`send_email`) reset `trials`
to 0 (and clear the retrieved context); but (3) the retry-exhaustion (stop)
transition clears only `writer_messages` and leaves `trials` unchanged at a
value ≥ 3, so the message processed after an exhaustion starts with
`trials = 3` rather than 0. -/
theorem reset_on_terminal_amended :
    (∀ ctx fuel, (run ctx fuel initMachine).node = .categorize_email →
       (run ctx fuel initMachine).state.writer_messages = [])
    ∧ (∀ ctx m, m.node = Node.create_draft ∨ m.node = Node.send_email →
       (step ctx m).state.trials = 0 ∧ (step ctx m).state.retrieved_documents = "")
    ∧ (∀ ctx m, m.node = Node.email_proofreader →
       (verify_generated_email ctx.agents m.state).sendable = false →
       3 ≤ m.state.trials →
       (step ctx m).state.trials = m.state.trials
       ∧ (step ctx m).state.writer_messages = []) := by
  refine ⟨?_, ?_, ?_⟩
  · intro ctx fuel hnode
    have hinv := wmInv_run ctx fuel initMachine (Or.inr (Or.inr rfl))
    rcases hinv with h | h | h
    · rw [hnode] at h
      exact absurd h (by simp)
    · rw [hnode] at h
      exact absurd h (by simp)
    · exact h
  · intro ctx m hm
    obtain ⟨node, s, pl, wl⟩ := m
    rcases hm with hm | hm <;> (simp only at hm; subst hm; simp [step, dispatch_response])
  · intro ctx m hn hs ht
    obtain ⟨node, s, pl, wl⟩ := m
    simp only at hn hs ht
    subst hn
    have hmr := must_rewrite_stop (verify_generated_email ctx.agents s) hs
      (by simpa using ht)
    constructor <;> simp [step, hmr, popClear]

/-- Witness for C3 amended: concrete discharges of all three parts. -/
theorem reset_on_terminal_amended_witness :
    (run ctxNever 9 initMachine).state.writer_messages = []
    ∧ ((step ctxSpam ⟨Node.create_draft,
          { GraphState.init with trials := 7, retrieved_documents := "x" }, [], []⟩).state.trials = 0
       ∧ (step ctxSpam ⟨Node.create_draft,
          { GraphState.init with trials := 7, retrieved_documents := "x" }, [], []⟩).state.retrieved_documents = "")
    ∧ ((step ctxNever (run ctxNever 8 initMachine)).state.trials =
         (run ctxNever 8 initMachine).state.trials
       ∧ (step ctxNever (run ctxNever 8 initMachine)).state.writer_messages = []) :=
  ⟨reset_on_terminal_amended.1 ctxNever 9 rfl,
   reset_on_terminal_amended.2.1 ctxSpam _ (Or.inl rfl),
   reset_on_terminal_amended.2.2 ctxNever (run ctxNever 8 initMachine) rfl rfl (by decide)⟩

end IAtencion

namespace IAtencion

/-! ## Claim C2: bounded retries -/

/-- One write/verify round of the revision cycle. -/
def revRound (a : Agents) (s : GraphState) : GraphState :=
  verify_generated_email a (write_draft_email a s)

theorem revRound_trials (a : Agents) (s : GraphState) :
    (revRound a s).trials = s.trials + 1 := by
  simp [revRound]

theorem revisionLoop_unfold (a : Agents) (s : GraphState) :
    revisionLoop a s =
      if (revRound a s).sendable = false ∧ (revRound a s).trials < 3 then
        ((revisionLoop a (revRound a s)).1, (revisionLoop a (revRound a s)).2.1,
         (revisionLoop a (revRound a s)).2.2 + 1)
      else
        ((must_rewrite (revRound a s)).2, (must_rewrite (revRound a s)).1, 1) := by
  rw [revisionLoop]
  simp only [revRound]
  rw [dite_eq_ite]

/-- C2 counterexample: in the never-approve run, the second email `eB` enters
the revision cycle with the stale `trials = 3` left by `eA`'s exhaustion, is
drafted exactly once (4 writer invocations in total for 3 + 1 rounds) and is
popped unsendable after its 1st verdict — not after a 3rd — with the trial
counter at 4, exceeding 3 before termination is forced. -/
theorem bounded_retries_cex :
    (run ctxNever 12 initMachine).popLog = [eA, eB]
    ∧ (run ctxNever 12 initMachine).writeLog.length = 4
    ∧ (run ctxNever 12 initMachine).state.trials = 4 :=
  ⟨rfl, rfl, rfl⟩

/-- C2 amended.  For a message entering the revision cycle with a fresh trial
counter (`trials = 0` — every message except those following a
retry-exhaustion, cf. the C3 amendment), the loop performs at most 3
write/verify rounds, exits with `"send"` at the first sendable verdict, and
otherwise exits with `"stop"` after the 3rd verdict; the final trial counter
equals the number of rounds performed, so it never exceeds 3. -/
theorem bounded_retries_amended (a : Agents) (s : GraphState) (h : s.trials = 0) :
    ((revRound a s).sendable = true →
       revisionLoop a s = (popClear (revRound a s), "send", 1))
    ∧ ((revRound a s).sendable = false →
       (revRound a (revRound a s)).sendable = true →
       revisionLoop a s = (popClear (revRound a (revRound a s)), "send", 2))
    ∧ ((revRound a s).sendable = false →
       (revRound a (revRound a s)).sendable = false →
       revisionLoop a s =
         (popClear (revRound a (revRound a (revRound a s))),
          if (revRound a (revRound a (revRound a s))).sendable = true then "send"
          else "stop", 3))
    ∧ (revisionLoop a s).2.2 ≤ 3
    ∧ (revisionLoop a s).1.trials = (revisionLoop a s).2.2 := by
  have ht1 : (revRound a s).trials = 1 := by rw [revRound_trials, h]
  have ht2 : (revRound a (revRound a s)).trials = 2 := by
    rw [revRound_trials, ht1]
  have ht3 : (revRound a (revRound a (revRound a s))).trials = 3 := by
    rw [revRound_trials, ht2]
  have key : revisionLoop a s =
      if (revRound a s).sendable = true then (popClear (revRound a s), "send", 1)
      else if (revRound a (revRound a s)).sendable = true then
        (popClear (revRound a (revRound a s)), "send", 2)
      else
        (popClear (revRound a (revRound a (revRound a s))),
         if (revRound a (revRound a (revRound a s))).sendable = true then "send"
         else "stop", 3) := by
    by_cases hs1 : (revRound a s).sendable
    · rw [revisionLoop_unfold]
      simp [hs1, must_rewrite_send _ hs1]
    · have hs1' : (revRound a s).sendable = false := Bool.eq_false_iff.mpr hs1
      by_cases hs2 : (revRound a (revRound a s)).sendable
      · rw [revisionLoop_unfold, revisionLoop_unfold]
        simp [hs1', ht1, hs2, must_rewrite_send _ hs2]
      · have hs2' : (revRound a (revRound a s)).sendable = false :=
          Bool.eq_false_iff.mpr hs2
        rw [revisionLoop_unfold, revisionLoop_unfold, revisionLoop_unfold]
        by_cases hs3 : (revRound a (revRound a (revRound a s))).sendable
        · simp [hs1', ht1, hs2', ht2, ht3, hs3, must_rewrite_send _ hs3]
        · have hs3' : (revRound a (revRound a (revRound a s))).sendable = false :=
            Bool.eq_false_iff.mpr hs3
          have hmr := must_rewrite_stop (revRound a (revRound a (revRound a s))) hs3'
            (by rw [ht3])
          simp [hs1', ht1, hs2', ht2, ht3, hs3', hmr]
  refine ⟨?_, ?_, ?_, ?_, ?_⟩
  · intro hs1
    simp [key, hs1]
  · intro hs1 hs2
    simp [key, hs1, hs2]
  · intro hs1 hs2
    simp [key, hs1, hs2]
  · by_cases hs1 : (revRound a s).sendable <;>
      by_cases hs2 : (revRound a (revRound a s)).sendable <;>
      simp [key, hs1, hs2, Bool.eq_false_iff.mpr]
  · by_cases hs1 : (revRound a s).sendable
    · simp [key, hs1, ht1]
    · have hs1' := Bool.eq_false_iff.mpr hs1
      by_cases hs2 : (revRound a (revRound a s)).sendable
      · simp [key, hs1', hs2, ht2]
      · have hs2' := Bool.eq_false_iff.mpr hs2
        simp [key, hs1', hs2', ht3]

/-- Witness for C2 amended: with the never-approving proofreader the loop
from a fresh state performs exactly 3 rounds and exits with `"stop"`. -/
theorem bounded_retries_witness :
    revisionLoop agNever GraphState.init =
      (popClear (revRound agNever (revRound agNever (revRound agNever GraphState.init))),
       if (revRound agNever (revRound agNever (revRound agNever
             GraphState.init))).sendable = true then "send" else "stop", 3)
    ∧ (revisionLoop agNever GraphState.init).2.2 ≤ 3 :=
  ⟨(bounded_retries_amended agNever GraphState.init rfl).2.2.1 rfl rfl,
   (bounded_retries_amended agNever GraphState.init rfl).2.2.2.1⟩

end IAtencion

namespace IAtencion

/-! ## Claim C8: fallback routing -/

/-- C8 counterexample: after the product enquiry `eA` escalates (its second
lookup returns the sentinel), the partial context `"q1\nans1\n\n"` is left in
`retrieved_documents`; the following complaint `eB` is routed to the fallback
branch and its draft is written with that *non-empty* context — refuting the
"empty retrieved context" half of the claim. -/
theorem fallback_routing_cex :
    (run ctxStale 9 initMachine).writeLog = [("customer_complaint", "q1\nans1\n\n")]
    ∧ (run ctxStale 9 initMachine).state.retrieved_documents = "q1\nans1\n\n" :=
  ⟨rfl, rfl⟩

/-- C8 amended.  A message whose category is outside
{product_enquiry, lead_enquiry, unrelated, spam} is routed by
`categorize_email` directly to `email_writer` — no enrichment node runs for
it — and its draft is produced with whatever `retrieved_documents` currently
holds (which is empty only if no residue was left by an earlier escalated or
exhausted message: the categorize step passes the context through
unchanged). -/
theorem fallback_routing_amended (ctx : RunCtx) (m : Machine) (ce : Email)
    (hn : m.node = .categorize_email)
    (hl : m.state.emails.getLast? = some ce)
    (h1 : ctx.agents.categorize ce.body ≠ "product_enquiry")
    (h2 : ctx.agents.categorize ce.body ≠ "lead_enquiry")
    (h3 : ctx.agents.categorize ce.body ≠ "unrelated")
    (h4 : ctx.agents.categorize ce.body ≠ "spam") :
    (step ctx m).node = .email_writer
    ∧ (step ctx m).state.retrieved_documents = m.state.retrieved_documents
    ∧ (step ctx (step ctx m)).writeLog =
        m.writeLog ++ [(ctx.agents.categorize ce.body, m.state.retrieved_documents)] := by
  obtain ⟨node, s, pl, wl⟩ := m
  simp only at hn hl
  subst hn
  have hroute : route_email_based_on_category
      { s with email_category := ctx.agents.categorize ce.body
               current_email := some ce } = "not product related" := by
    simp [route_email_based_on_category, h1, h2, h3, h4]
  refine ⟨?_, ?_, ?_⟩ <;>
    simp [step, categorize_email, hl, hroute, write_draft_email]

/-- Witness for C8 amended: the complaint `eB` in the stale-context run. -/
theorem fallback_routing_amended_witness :
    (step ctxStale (run ctxStale 7 initMachine)).node = .email_writer
    ∧ (step ctxStale (run ctxStale 7 initMachine)).state.retrieved_documents =
        (run ctxStale 7 initMachine).state.retrieved_documents
    ∧ (step ctxStale (step ctxStale (run ctxStale 7 initMachine))).writeLog =
        (run ctxStale 7 initMachine).writeLog ++
          [(ctxStale.agents.categorize eB.body,
            (run ctxStale 7 initMachine).state.retrieved_documents)] :=
  fallback_routing_amended ctxStale (run ctxStale 7 initMachine) eB rfl rfl
    (by decide) (by decide) (by decide) (by decide)

end IAtencion

namespace IAtencion

/-! ## Claim C7: enrichment short-circuit -/

/-- The piece `retrieve_from_rag` appends to `final_answer` for one
successful lookup. -/
def ragChunk (lookup : String → String) (q : String) : String :=
  q ++ "\n" ++ lookup q ++ "\n\n"

/-- The full accumulated context for a list of successful lookups. -/
def ragAll (lookup : String → String) (qs : List String) : String :=
  qs.foldr (fun q r => ragChunk lookup q ++ r) ""

theorem ragLoop_no_sentinel (lookup : String → String) (qs : List String)
    (acc : String) (h : ∀ q ∈ qs, lookup q ≠ "null") :
    ragLoop lookup qs acc = (acc ++ ragAll lookup qs, false, qs.length) := by
  induction qs generalizing acc with
  | nil => simp [ragLoop, ragAll]
  | cons q qs ih =>
    have hq : lookup q ≠ "null" := h q (by simp)
    simp only [ragLoop, if_neg hq]
    rw [ih _ (fun p hp => h p (by simp [hp]))]
    simp [ragAll, ragChunk, String.append_assoc]

theorem ragLoop_cons (lookup : String → String) (q : String) (qs : List String)
    (acc : String) :
    ragLoop lookup (q :: qs) acc =
      if lookup q = "null" then (acc, true, 1)
      else ((ragLoop lookup qs (acc ++ q ++ "\n" ++ lookup q ++ "\n\n")).1,
            (ragLoop lookup qs (acc ++ q ++ "\n" ++ lookup q ++ "\n\n")).2.1,
            (ragLoop lookup qs (acc ++ q ++ "\n" ++ lookup q ++ "\n\n")).2.2 + 1) := rfl

theorem ragLoop_sentinel (lookup : String → String) (pre : List String)
    (q : String) (post : List String) (acc : String)
    (hpre : ∀ p ∈ pre, lookup p ≠ "null") (hq : lookup q = "null") :
    ragLoop lookup (pre ++ q :: post) acc =
      (acc ++ ragAll lookup pre, true, pre.length + 1) := by
  induction pre generalizing acc with
  | nil => simp [ragLoop, hq, ragAll]
  | cons p ps ih =>
    have hp : lookup p ≠ "null" := hpre p (by simp)
    rw [List.cons_append, ragLoop_cons, if_neg hp,
      ih _ (fun x hx => hpre x (by simp [hx]))]
    simp [ragAll, ragChunk, String.append_assoc]

/-- C7.  Escalation short-circuit: `retrieve_from_rag` walks the queries in
order; if no lookup returns the `"null"` sentinel it stores the concatenation
of `query + answer` chunks for every query with `needs_human_attention =
false`, performing one lookup per query; at the first sentinel it stops with
`needs_human_attention = true`, the context accumulated so far, and exactly
`pre.length + 1` lookups performed (so 2 lookups when the sentinel is on the
2nd of 3 queries). -/
theorem escalation_short_circuit (a : Agents) (s : GraphState) :
    ((∀ q ∈ s.rag_queries, a.generate_rag_answer q ≠ "null") →
       retrieve_from_rag a s =
         { s with retrieved_documents := ragAll a.generate_rag_answer s.rag_queries
                  needs_human_attention := false }
       ∧ (ragLoop a.generate_rag_answer s.rag_queries "").2.2 = s.rag_queries.length)
    ∧ (∀ pre q post, s.rag_queries = pre ++ q :: post →
       (∀ p ∈ pre, a.generate_rag_answer p ≠ "null") →
       a.generate_rag_answer q = "null" →
       (retrieve_from_rag a s).needs_human_attention = true
       ∧ (retrieve_from_rag a s).retrieved_documents = ragAll a.generate_rag_answer pre
       ∧ (ragLoop a.generate_rag_answer s.rag_queries "").2.2 = pre.length + 1) := by
  constructor
  · intro h
    rw [retrieve_from_rag, ragLoop_no_sentinel _ _ _ h]
    exact ⟨by simp, by simp⟩
  · intro pre q post hq hpre hnull
    rw [retrieve_from_rag, hq, ragLoop_sentinel _ _ _ _ _ hpre hnull]
    exact ⟨rfl, by simp, by simp⟩

/-- A lookup capability with the sentinel on query `"b"`. -/
def lookupB : String → String := fun q => if q = "b" then "null" else "ans"

/-- A state holding three RAG queries. -/
def sThreeQ : GraphState := { GraphState.init with rag_queries := ["a", "b", "c"] }

/-- Agents wrapping `lookupB` (other capabilities irrelevant here). -/
def agLookupB : Agents :=
  ⟨fun _ => "product_enquiry", fun _ => ["a", "b", "c"], lookupB,
   fun _ _ => "d", fun _ _ => (true, "ok")⟩

/-- Witness for C7: three queries with the sentinel on the 2nd — exactly two
lookups are performed and the escalation flag is set. -/
theorem escalation_short_circuit_witness :
    (retrieve_from_rag agLookupB sThreeQ).needs_human_attention = true
    ∧ (retrieve_from_rag agLookupB sThreeQ).retrieved_documents =
        ragAll agLookupB.generate_rag_answer ["a"]
    ∧ (ragLoop agLookupB.generate_rag_answer sThreeQ.rag_queries "").2.2 = 2 :=
  (escalation_short_circuit agLookupB sThreeQ).2 ["a"] "b" ["c"] rfl
    (by decide) rfl

/-! ## Claim C10: draft creation reports success on fallback failure -/

/-- C10.  `create_draft_reply` returns the success dictionary whenever SMTP
succeeds, and *also* when SMTP fails, the IMAP fallback reaches a drafts
folder, and the APPEND then fails (the append error is swallowed); it
returns `None` exactly when SMTP fails and either the fallback connection
raises or no drafts folder is found (the exceptions that escape to the outer
handler). -/
theorem draft_fallback_reports_success (env : DraftEnv) (tid mid : String) :
    (env.smtp_ok = false → env.connect_ok = true → env.drafts_folder.isSome →
       env.append_ok = false → create_draft_reply env tid mid = some (tid, mid))
    ∧ (create_draft_reply env tid mid = none ↔
       env.smtp_ok = false ∧ (env.connect_ok = false ∨ env.drafts_folder = none)) := by
  obtain ⟨so, co, df, ao⟩ := env
  constructor
  · intro h1 h2 h3 h4
    simp only at h1 h2 h3 h4
    subst h1
    subst h2
    cases df with
    | none => simp at h3
    | some f => simp [create_draft_reply]
  · cases so <;> cases co <;> cases df <;> simp [create_draft_reply]

/-- Witness for C10: SMTP fails, the drafts folder is found, APPEND fails —
yet the success dictionary is returned. -/
theorem draft_fallback_reports_success_witness :
    create_draft_reply ⟨false, true, some "Drafts", false⟩ "t1" "m1" = some ("t1", "m1")
    ∧ (create_draft_reply ⟨false, true, some "Drafts", false⟩ "t1" "m1" = none ↔
       (false = false ∧ (true = false ∨ (some "Drafts" : Option String) = none))) :=
  ⟨(draft_fallback_reports_success ⟨false, true, some "Drafts", false⟩ "t1" "m1").1
      rfl rfl rfl rfl,
   (draft_fallback_reports_success ⟨false, true, some "Drafts", false⟩ "t1" "m1").2⟩

end IAtencion

namespace IAtencion

/-! ## Claim C6: thread-key precedence -/

theorem string_append_cancel_right (a b c : String) (h : a ++ c = b ++ c) :
    a = b := by
  have hd := congrArg String.data h
  simp only [String.data_append] at hd
  have hl := List.append_cancel_right hd
  cases a
  cases b
  simp only at hl
  rw [hl]

/-- C6.  Thread-key precedence of `_get_thread_id`: (1) with a tokenizable
`references` header the key is its first token, brackets stripped; (2) else
with a non-empty `in-reply-to` the key is that value, stripped; (3) else with
a non-empty `message-id` the key is the message's own id, stripped; (4) with
none of the three the key is the synthesized `fresh@smtp_server` value, so
(5) two invocations drawing different uuids produce different keys, while
(6) whenever any of the three headers is present the key does not depend on
the uuid draw at all — non-determinism arises only in the no-header case. -/
theorem thread_key_precedence (server : String) (m m' : RawMsg) :
    (∀ r rest, pySplit m.references = r :: rest →
       get_thread_id server m = pyStripAngles r)
    ∧ (pySplit m.references = [] → m.in_reply_to ≠ "" →
       get_thread_id server m = pyStripAngles m.in_reply_to)
    ∧ (pySplit m.references = [] → m.in_reply_to = "" → m.message_id ≠ "" →
       get_thread_id server m = pyStripAngles m.message_id)
    ∧ (pySplit m.references = [] → m.in_reply_to = "" → m.message_id = "" →
       get_thread_id server m = m.fresh ++ "@" ++ server)
    ∧ (pySplit m.references = [] → m.in_reply_to = "" → m.message_id = "" →
       pySplit m'.references = [] → m'.in_reply_to = "" → m'.message_id = "" →
       m.fresh ≠ m'.fresh →
       get_thread_id server m ≠ get_thread_id server m')
    ∧ (m'.references = m.references → m'.in_reply_to = m.in_reply_to →
       m'.message_id = m.message_id →
       (pySplit m.references ≠ [] ∨ m.in_reply_to ≠ "" ∨ m.message_id ≠ "") →
       get_thread_id server m = get_thread_id server m') := by
  refine ⟨?_, ?_, ?_, ?_, ?_, ?_⟩
  · intro r rest hr
    simp [get_thread_id, hr]
  · intro hr hi
    simp [get_thread_id, hr, hi]
  · intro hr hi hm
    simp [get_thread_id, hr, hi, hm]
  · intro hr hi hm
    simp [get_thread_id, hr, hi, hm]
  · intro hr hi hm hr' hi' hm' hf heq
    rw [show get_thread_id server m = m.fresh ++ "@" ++ server by
          simp [get_thread_id, hr, hi, hm],
        show get_thread_id server m' = m'.fresh ++ "@" ++ server by
          simp [get_thread_id, hr', hi', hm']] at heq
    rw [String.append_assoc, String.append_assoc] at heq
    exact hf (string_append_cancel_right _ _ _ heq)
  · intro hrefs hirt hmid hpresent
    unfold get_thread_id
    rw [hrefs, hirt, hmid]
    cases hc : pySplit m.references with
    | cons r rest => simp [hc]
    | nil =>
      rcases hpresent with hp | hp | hp
      · exact absurd hc hp
      · simp [hc, hp]
      · by_cases hi : m.in_reply_to = ""
        · simp [hc, hi, hp]
        · simp [hc, hi]

/-- A message with references, in-reply-to, and its own message id set. -/
def mRef : RawMsg := ⟨" <r1@x> <r2@x>", "<irt@x>", "<mid@x>", "s@x", "subj", "b", "f1"⟩

/-- A message with none of the three threading headers, first uuid draw. -/
def mNo1 : RawMsg := ⟨"", "", "", "s@x", "subj", "b", "f1"⟩

/-- The same headerless message with a different uuid draw. -/
def mNo2 : RawMsg := ⟨"", "", "", "s@x", "subj", "b", "f2"⟩

/-- Witness for C6: the references-first rule on a concrete header set, and
distinct keys for distinct uuid draws in the no-header case. -/
theorem thread_key_precedence_witness :
    get_thread_id "srv" mRef = pyStripAngles "<r1@x>"
    ∧ get_thread_id "srv" mNo1 ≠ get_thread_id "srv" mNo2 :=
  ⟨(thread_key_precedence "srv" mRef mRef).1 "<r1@x>" ["<r2@x>"] (by decide),
   (thread_key_precedence "srv" mNo1 mNo2).2.2.2.2.1 rfl rfl rfl rfl rfl rfl
     (by decide)⟩

end IAtencion

namespace IAtencion

/-! ## Claim C5: snapshot dedup -/

@[simp] theorem get_email_info_threadId (server : String) (m : RawMsg) :
    (get_email_info server m).threadId = get_thread_id server m := rfl

theorem fetchLoop_no_skip (server user : String) (drafts : List String)
    (l : List RawMsg) (seen : List String)
    (hskip : ∀ m ∈ l, should_skip_email user (get_email_info server m) = false)
    (hdraft : ∀ m ∈ l, get_thread_id server m ∉ drafts) :
    fetchLoop server user drafts l seen =
      (firstOccurrences server l seen).map (get_email_info server) := by
  induction l generalizing seen with
  | nil => rfl
  | cons m rest ih =>
    have hd : get_thread_id server m ∉ drafts := hdraft m (by simp)
    have hs : should_skip_email user (get_email_info server m) = false :=
      hskip m (by simp)
    have ihr : ∀ seen', fetchLoop server user drafts rest seen' =
        (firstOccurrences server rest seen').map (get_email_info server) :=
      fun seen' => ih seen' (fun x hx => hskip x (List.mem_cons_of_mem _ hx))
        (fun x hx => hdraft x (List.mem_cons_of_mem _ hx))
    by_cases hm : get_thread_id server m ∈ seen
    · simp [fetchLoop, firstOccurrences, hm, ihr]
    · simp [fetchLoop, firstOccurrences, hm, hd, hs, ihr]

theorem firstOccurrences_mem (server : String) (l : List RawMsg)
    (seen : List String) (k : String) :
    k ∈ (firstOccurrences server l seen).map (get_thread_id server) ↔
      k ∈ l.map (get_thread_id server) ∧ k ∉ seen := by
  induction l generalizing seen with
  | nil => simp [firstOccurrences]
  | cons m rest ih =>
    by_cases hm : get_thread_id server m ∈ seen
    · rw [firstOccurrences, if_pos hm, ih]
      simp only [List.map_cons, List.mem_cons]
      constructor
      · rintro ⟨h1, h2⟩
        exact ⟨Or.inr h1, h2⟩
      · rintro ⟨h1 | h1, h2⟩
        · exact absurd (h1 ▸ hm) h2
        · exact ⟨h1, h2⟩
    · rw [firstOccurrences, if_neg hm]
      simp only [List.map_cons, List.mem_cons, ih, List.mem_cons, not_or]
      constructor
      · rintro (h | ⟨h1, h2⟩)
        · exact ⟨Or.inl h, h ▸ hm⟩
        · exact ⟨Or.inr h1, h2.2⟩
      · rintro ⟨h | h, h2⟩
        · exact Or.inl h
        · by_cases hk : k = get_thread_id server m
          · exact Or.inl hk
          · exact Or.inr ⟨h, hk, h2⟩

theorem firstOccurrences_nodup (server : String) (l : List RawMsg)
    (seen : List String) :
    ((firstOccurrences server l seen).map (get_thread_id server)).Nodup := by
  induction l generalizing seen with
  | nil => simp [firstOccurrences]
  | cons m rest ih =>
    by_cases hm : get_thread_id server m ∈ seen
    · rw [firstOccurrences, if_pos hm]
      exact ih seen
    · rw [firstOccurrences, if_neg hm]
      simp only [List.map_cons, List.nodup_cons]
      refine ⟨?_, ih _⟩
      intro hmem
      have := (firstOccurrences_mem server rest _ _).mp hmem
      exact this.2 (by simp)

theorem firstOccurrences_find (server : String) (l : List RawMsg)
    (seen : List String) :
    ∀ m' ∈ firstOccurrences server l seen,
      l.find? (fun x => get_thread_id server x == get_thread_id server m')
        = some m' := by
  induction l generalizing seen with
  | nil => simp [firstOccurrences]
  | cons m rest ih =>
    intro m' hm'
    by_cases hm : get_thread_id server m ∈ seen
    · rw [firstOccurrences, if_pos hm] at hm'
      have hkey : get_thread_id server m' ∉ seen :=
        ((firstOccurrences_mem server rest seen _).mp
          (List.mem_map_of_mem _ hm')).2
      have hne : get_thread_id server m ≠ get_thread_id server m' :=
        fun he => hkey (he ▸ hm)
      rw [List.find?_cons_of_neg _ (by simpa using hne)]
      exact ih seen m' hm'
    · rw [firstOccurrences, if_neg hm] at hm'
      rcases List.mem_cons.mp hm' with rfl | hm'
      · rw [List.find?_cons_of_pos _ (by simp)]
      · have hkey : get_thread_id server m' ∉ get_thread_id server m :: seen :=
          ((firstOccurrences_mem server rest _ _).mp
            (List.mem_map_of_mem _ hm')).2
        have hne : get_thread_id server m ≠ get_thread_id server m' :=
          fun he => hkey (by simp [he])
        rw [List.find?_cons_of_neg _ (by simpa using hne)]
        exact ih _ m' hm'

/-- A message sent by the system's own address (`me@x`). -/
def mSelf : RawMsg := ⟨"", "", "<m1@x>", "me@x", "s", "b", "f"⟩

/-- C5 counterexample: a batch of one self-sent message spans one distinct
thread key, but the snapshot's output is empty — the output does not contain
one message per thread key for every fetch batch (the self-sender and
draft-index filters can remove a key's only representative). -/
theorem snapshot_dedup_cex :
    ([mSelf].map (get_thread_id "srv")).dedup.length = 1
    ∧ fetch_unanswered_emails "srv" "me@x" [] [mSelf] = [] :=
  ⟨rfl, rfl⟩

/-- C5 amended.  For a fetch batch none of whose messages is self-sent and
none of whose thread keys is in the draft index, the snapshot output has
exactly one entry per distinct thread key of the batch — `K` entries for `K`
distinct keys, with no duplicate keys — and each kept entry is built from the
earliest-arrival (first-in-batch) occurrence of its key. -/
theorem snapshot_dedup_amended (server user : String) (drafts : List String)
    (batch : List RawMsg)
    (hskip : ∀ m ∈ batch, should_skip_email user (get_email_info server m) = false)
    (hdraft : ∀ m ∈ batch, get_thread_id server m ∉ drafts) :
    fetch_unanswered_emails server user drafts batch =
      (firstOccurrences server batch []).map (get_email_info server)
    ∧ ((fetch_unanswered_emails server user drafts batch).map (·.threadId)).Nodup
    ∧ (∀ k, k ∈ (fetch_unanswered_emails server user drafts batch).map (·.threadId)
         ↔ k ∈ batch.map (get_thread_id server))
    ∧ (fetch_unanswered_emails server user drafts batch).length =
        (batch.map (get_thread_id server)).dedup.length
    ∧ ∀ info ∈ fetch_unanswered_emails server user drafts batch,
        ∃ m, batch.find? (fun x => get_thread_id server x == info.threadId) = some m
          ∧ info = get_email_info server m := by
  have heq : fetch_unanswered_emails server user drafts batch =
      (firstOccurrences server batch []).map (get_email_info server) :=
    fetchLoop_no_skip server user drafts batch [] hskip hdraft
  have hkeys : (fetch_unanswered_emails server user drafts batch).map (·.threadId)
      = (firstOccurrences server batch []).map (get_thread_id server) := by
    rw [heq, List.map_map]
    rfl
  have hnodup : ((fetch_unanswered_emails server user drafts batch).map
      (·.threadId)).Nodup := by
    rw [hkeys]
    exact firstOccurrences_nodup server batch []
  have hmem : ∀ k, k ∈ (fetch_unanswered_emails server user drafts batch).map
      (·.threadId) ↔ k ∈ batch.map (get_thread_id server) := by
    intro k
    rw [hkeys, firstOccurrences_mem]
    simp
  refine ⟨heq, hnodup, hmem, ?_, ?_⟩
  · have hperm : List.Perm
        ((fetch_unanswered_emails server user drafts batch).map (·.threadId))
        ((batch.map (get_thread_id server)).dedup) := by
      refine (List.perm_ext_iff_of_nodup hnodup (List.nodup_dedup _)).mpr ?_
      intro k
      rw [hmem k, List.mem_dedup]
    have := hperm.length_eq
    simpa using this
  · intro info hinfo
    rw [heq] at hinfo
    obtain ⟨m, hm, rfl⟩ := List.mem_map.mp hinfo
    exact ⟨m, by simpa using firstOccurrences_find server batch [] m hm, rfl⟩

/-- A first message of thread `t1@x`. -/
def mT1a : RawMsg := ⟨"", "", "<t1@x>", "alice@y", "s1", "b1", "f1"⟩

/-- A second message of the same thread `t1@x` (reply headers set). -/
def mT1b : RawMsg := ⟨"<t1@x>", "<t1@x>", "<m2@x>", "bob@y", "s2", "b2", "f2"⟩

/-- A message of a second thread `t2@x`. -/
def mT2 : RawMsg := ⟨"", "", "<t2@x>", "carol@y", "s3", "b3", "f3"⟩

/-- Witness for C5 amended: 3 raw messages over 2 thread keys, no drafts, no
self-sent mail — the output keeps exactly the 2 earliest representatives. -/
theorem snapshot_dedup_amended_witness :
    fetch_unanswered_emails "srv" "me@x" [] [mT1a, mT1b, mT2] =
      (firstOccurrences "srv" [mT1a, mT1b, mT2] []).map (get_email_info "srv")
    ∧ ((fetch_unanswered_emails "srv" "me@x" [] [mT1a, mT1b, mT2]).map
        (·.threadId)).Nodup
    ∧ (∀ k, k ∈ (fetch_unanswered_emails "srv" "me@x" [] [mT1a, mT1b, mT2]).map
          (·.threadId)
        ↔ k ∈ [mT1a, mT1b, mT2].map (get_thread_id "srv"))
    ∧ (fetch_unanswered_emails "srv" "me@x" [] [mT1a, mT1b, mT2]).length =
        ([mT1a, mT1b, mT2].map (get_thread_id "srv")).dedup.length
    ∧ ∀ info ∈ fetch_unanswered_emails "srv" "me@x" [] [mT1a, mT1b, mT2],
        ∃ m, [mT1a, mT1b, mT2].find?
              (fun x => get_thread_id "srv" x == info.threadId) = some m
          ∧ info = get_email_info "srv" m :=
  snapshot_dedup_amended "srv" "me@x" [] [mT1a, mT1b, mT2]
    (by decide) (by decide)

end IAtencion
